import Mathlib

/-!
Verification of the course-catalog storage, validation and query logic of
`src/app.py` (a Flask application).  The embedding models:

* JSON documents (`JVal`) as produced by Python's `json` module;
* the backing file `course_catalog.json` (`FileState`): it is either absent,
  present but not parseable as JSON, or present with content that parses to a
  JSON document — `json.load` / `json.dump` of the Python standard library are
  external collaborators, so the file is modelled by its parse outcome;
* Python exceptions that the embedded code can raise (`PyErr`);
* `load_courses` (app.py lines 54-59), `save_courses` (lines 62-67),
  the POST branch of `add_course` (lines 103-166) and the linear scan of
  `course_details` (line 179).
-/

/-- A JSON document, as returned by Python's `json.load`. -/
inductive JVal where
  | jnull : JVal
  | jbool : Bool → JVal
  | jnum : Int → JVal
  | jstr : String → JVal
  | jarr : List JVal → JVal
  | jobj : List (String × JVal) → JVal

/-- State of the backing file `course_catalog.json`.  `content v` means the
file exists and its text parses (via `json.load`) to the document `v`;
`malformed` means the file exists but `json.load` would raise
`JSONDecodeError` on it. -/
inductive FileState where
  | absent : FileState
  | malformed : FileState
  | content : JVal → FileState

/-- Python exceptions raised by the embedded code paths. -/
inductive PyErr where
  | jsonDecodeError : PyErr
  | attributeError : PyErr
  | badRequestKeyError : PyErr
  | keyError : PyErr
  | typeError : PyErr
deriving DecidableEq

/-- `load_courses` (app.py lines 54-59): return `[]` when the file does not
exist, otherwise `json.load(file)`, which raises `JSONDecodeError` when the
content is not well-formed JSON and otherwise returns the parsed document
as-is, with no schema check. -/
def load_courses : FileState → Except PyErr JVal
  | .absent => .ok (.jarr [])
  | .malformed => .error .jsonDecodeError
  | .content v => .ok v

/-- `save_courses` (app.py lines 62-67): load the existing courses, call
`.append(data)` on the result (an `AttributeError` when the loaded document is
not a list) and write the whole sequence back with `json.dump`. -/
def save_courses (data : JVal) (fs : FileState) : Except PyErr FileState :=
  match load_courses fs with
  | .error e => .error e
  | .ok (.jarr courses) => .ok (.content (.jarr (courses ++ [data])))
  | .ok _ => .error .attributeError

/-- Iterated `save_courses`: perform one append per element of the list, in
order, propagating the first failure. -/
def appendAll : List JVal → FileState → Except PyErr FileState
  | [], fs => .ok fs
  | c :: cs, fs =>
    match save_courses c fs with
    | .error e => .error e
    | .ok fs' => appendAll cs fs'

lemma appendAll_content (cs xs : List JVal) :
    appendAll cs (.content (.jarr xs)) = .ok (.content (.jarr (xs ++ cs))) := by
  induction cs generalizing xs with
  | nil => simp [appendAll]
  | cons c cs ih =>
      simp only [appendAll, save_courses, load_courses]
      rw [ih (xs ++ [c])]
      simp

/-- C1 -- `append(c)` followed by `loadAll()` yields the prior sequence with
`c` appended at the end: the last element is `c`, the length grows by exactly
one and the prior records are unchanged and in order; starting from an absent
backing file, appending a list of N courses one at a time produces exactly
that list, of length N, in insertion order. -/
theorem append_then_loadAll (fs : FileState) (xs : List JVal) (c : JVal)
    (h : load_courses fs = .ok (.jarr xs)) :
    (save_courses c fs = .ok (.content (.jarr (xs ++ [c]))) ∧
      load_courses (.content (.jarr (xs ++ [c]))) = .ok (.jarr (xs ++ [c])) ∧
      (xs ++ [c]).getLast? = some c ∧
      (xs ++ [c]).length = xs.length + 1) ∧
    ∀ cs : List JVal, ∃ fs',
      appendAll cs .absent = .ok fs' ∧ load_courses fs' = .ok (.jarr cs) := by
  refine ⟨⟨?_, rfl, ?_, by simp⟩, ?_⟩
  · simp [save_courses, h]
  · simp [List.getLast?_append]
  · intro cs
    cases cs with
    | nil => exact ⟨.absent, rfl, rfl⟩
    | cons c cs =>
        refine ⟨.content (.jarr (c :: cs)), ?_, rfl⟩
        simp only [appendAll, save_courses, load_courses, List.nil_append]
        rw [appendAll_content cs [c]]
        simp

/-- Witness for C1 at a concrete store and course. -/
theorem append_then_loadAll_witness :
    (save_courses (.jstr "c") (.content (.jarr [.jstr "a"])) =
        .ok (.content (.jarr [.jstr "a", .jstr "c"])) ∧
      load_courses (.content (.jarr [.jstr "a", .jstr "c"])) =
        .ok (.jarr [.jstr "a", .jstr "c"]) ∧
      [JVal.jstr "a", JVal.jstr "c"].getLast? = some (.jstr "c") ∧
      [JVal.jstr "a", JVal.jstr "c"].length = [JVal.jstr "a"].length + 1) ∧
    ∀ cs : List JVal, ∃ fs',
      appendAll cs .absent = .ok fs' ∧ load_courses fs' = .ok (.jarr cs) :=
  append_then_loadAll (.content (.jarr [.jstr "a"])) [.jstr "a"] (.jstr "c") rfl

/-- C6 -- `loadAll` on an absent backing file returns an empty sequence rather
than failing; when the file exists (and parses to a sequence of records), it
returns every persisted record in file order. -/
theorem loadAll_absent_and_order :
    load_courses .absent = .ok (.jarr []) ∧
    ∀ xs : List JVal, load_courses (.content (.jarr xs)) = .ok (.jarr xs) :=
  ⟨rfl, fun _ => rfl⟩

/-- C8 -- `loadAll` fails (with the storage error `JSONDecodeError`) exactly
when the backing file is present but its content is not well-formed JSON; the
error propagates to callers such as `save_courses` rather than being recovered
locally. -/
theorem loadAll_error_iff_malformed :
    (∀ fs : FileState,
      (∃ e, load_courses fs = .error e) ↔ fs = .malformed) ∧
    load_courses .malformed = .error .jsonDecodeError ∧
    ∀ d : JVal, save_courses d .malformed = .error .jsonDecodeError := by
  refine ⟨?_, rfl, fun d => rfl⟩
  intro fs
  constructor
  · rintro ⟨e, he⟩
    cases fs <;> simp [load_courses] at he ⊢
  · rintro rfl
    exact ⟨.jsonDecodeError, rfl⟩

/-- C10 -- `loadAll` performs no schema validation: whenever the backing file
exists and holds any well-formed JSON document (a number, an object, ...),
the parsed document is returned as-is, and a failure arises only when the
content cannot be parsed as JSON at all. -/
theorem loadAll_no_schema_validation :
    (∀ v : JVal, load_courses (.content v) = .ok v) ∧
    ∀ fs : FileState, (∃ e, load_courses fs = .error e) → fs = .malformed := by
  refine ⟨fun v => rfl, ?_⟩
  rintro fs ⟨e, he⟩
  cases fs <;> simp [load_courses] at he ⊢

/-- Witness for C10: a bare number is returned as-is, and the only erroring
state is the malformed one. -/
theorem loadAll_no_schema_validation_witness :
    load_courses (.content (.jnum 5)) = .ok (.jnum 5) ∧
    FileState.malformed = FileState.malformed :=
  ⟨loadAll_no_schema_validation.1 (.jnum 5),
    loadAll_no_schema_validation.2 .malformed ⟨.jsonDecodeError, rfl⟩⟩

/-- A course record as built by `add_course` (app.py lines 150-160) and as
persisted in the JSON file: a flat field-to-string mapping, modelled as an
association list in insertion order. -/
abbrev Course := List (String × String)

/-- The JSON document `json.dump` writes for a course dict. -/
def courseToJVal (c : Course) : JVal :=
  .jobj (c.map fun kv => (kv.1, .jstr kv.2))

/-- `request.form[k]`: the submitted value when the key is present, otherwise
Flask raises `BadRequestKeyError` (an HTTP 400). -/
def formGet (form : List (String × String)) (k : String) : Except PyErr String :=
  match form.lookup k with
  | some v => .ok v
  | none => .error .badRequestKeyError

/-- The required form fields of `add_course`, paired with the human-readable
labels the handler reports (app.py lines 115-142), in check order. -/
def requiredFields : List (String × String) :=
  [("name", "Course name"), ("instructor", "Instructor"), ("code", "Course code"),
   ("semester", "Semester"), ("schedule", "Schedule"), ("classroom", "Classroom"),
   ("prerequisites", "Prerequisites"), ("grading", "Grading"),
   ("description", "Description")]

/-- The `missing_fields` list built at app.py lines 115-142: one label per
field whose submitted value is falsy (for a `str`, exactly the empty string),
in check order. -/
def missingFields (course_name instructor course_code semester schedule
    classroom prerequisites grading description : String) : List String :=
  (if course_name = "" then ["Course name"] else []) ++
  (if instructor = "" then ["Instructor"] else []) ++
  (if course_code = "" then ["Course code"] else []) ++
  (if semester = "" then ["Semester"] else []) ++
  (if schedule = "" then ["Schedule"] else []) ++
  (if classroom = "" then ["Classroom"] else []) ++
  (if prerequisites = "" then ["Prerequisites"] else []) ++
  (if grading = "" then ["Grading"] else []) ++
  (if description = "" then ["Description"] else [])

/-- The course dict literal of app.py lines 150-160, in source key order. -/
def mkCourse (course_code course_name instructor semester schedule classroom
    prerequisites grading description : String) : Course :=
  [("code", course_code), ("name", course_name), ("instructor", instructor),
   ("semester", semester), ("schedule", schedule), ("classroom", classroom),
   ("prerequisites", prerequisites), ("grading", grading),
   ("description", description)]

/-- Observable outcome of a POST to `/add_course` that did not raise. -/
inductive PostOutcome where
  | validationFailed : List String → PostOutcome
  | saved : Course → PostOutcome

/-- The POST branch of `add_course` (app.py lines 103-166): read the nine form
fields (each read raises on an absent key), collect `missing_fields`, and
either flash the missing labels and redirect (leaving the file untouched) or
build the course dict and pass it to `save_courses`. -/
def add_course_post (form : List (String × String)) (fs : FileState) :
    Except PyErr (PostOutcome × FileState) := do
  let course_name ← formGet form "name"
  let instructor ← formGet form "instructor"
  let course_code ← formGet form "code"
  let semester ← formGet form "semester"
  let schedule ← formGet form "schedule"
  let classroom ← formGet form "classroom"
  let prerequisites ← formGet form "prerequisites"
  let grading ← formGet form "grading"
  let description ← formGet form "description"
  let missing_fields := missingFields course_name instructor course_code
    semester schedule classroom prerequisites grading description
  if missing_fields ≠ [] then
    return (.validationFailed missing_fields, fs)
  else
    match save_courses (courseToJVal (mkCourse course_code course_name
        instructor semester schedule classroom prerequisites grading
        description)) fs with
    | .error e => .error e
    | .ok fs' => return (.saved (mkCourse course_code course_name instructor
        semester schedule classroom prerequisites grading description), fs')

/-- `course['code']` on a loaded JSON document: a key lookup that raises
`KeyError` when the key is absent and `TypeError` when the document is not an
object. -/
def jIndex (v : JVal) (k : String) : Except PyErr JVal :=
  match v with
  | .jobj fields =>
      match fields.lookup k with
      | some x => .ok x
      | none => .error .keyError
  | _ => .error .typeError

/-- Python `==` between a JSON value and a `str`: true exactly for an equal
string, false (not an error) for any other type. -/
def pyEqStr : JVal → String → Bool
  | .jstr s, t => s = t
  | _, _ => false

/-- The lookup at app.py line 179:
`next((course for course in courses if course['code'] == code), None)` —
a linear scan returning the first element whose `'code'` entry equals `code`,
and `none` when the scan is exhausted. -/
def find_course : List JVal → String → Except PyErr (Option JVal)
  | [], _ => .ok none
  | c :: rest, code =>
    match jIndex c "code" with
    | .error e => .error e
    | .ok v => if pyEqStr v code then .ok (some c) else find_course rest code

lemma mem_if_singleton (l x : String) (p : Prop) [Decidable p] :
    l ∈ (if p then [x] else []) ↔ p ∧ l = x := by
  by_cases hp : p <;> simp [hp]

lemma missingFields_eq_nil_iff (vn vi vc vse vsc vcl vp vg vd : String) :
    missingFields vn vi vc vse vsc vcl vp vg vd = [] ↔
      vn ≠ "" ∧ vi ≠ "" ∧ vc ≠ "" ∧ vse ≠ "" ∧ vsc ≠ "" ∧ vcl ≠ "" ∧
      vp ≠ "" ∧ vg ≠ "" ∧ vd ≠ "" := by
  simp [missingFields, List.append_eq_nil, ite_eq_right_iff]

lemma mem_missingFields (l vn vi vc vse vsc vcl vp vg vd : String) :
    l ∈ missingFields vn vi vc vse vsc vcl vp vg vd ↔
      (vn = "" ∧ l = "Course name") ∨ (vi = "" ∧ l = "Instructor") ∨
      (vc = "" ∧ l = "Course code") ∨ (vse = "" ∧ l = "Semester") ∨
      (vsc = "" ∧ l = "Schedule") ∨ (vcl = "" ∧ l = "Classroom") ∨
      (vp = "" ∧ l = "Prerequisites") ∨ (vg = "" ∧ l = "Grading") ∨
      (vd = "" ∧ l = "Description") := by
  simp [missingFields, List.mem_append, mem_if_singleton]

lemma add_course_post_eq (form : List (String × String)) (fs : FileState)
    (vn vi vc vse vsc vcl vp vg vd : String)
    (h1 : form.lookup "name" = some vn) (h2 : form.lookup "instructor" = some vi)
    (h3 : form.lookup "code" = some vc) (h4 : form.lookup "semester" = some vse)
    (h5 : form.lookup "schedule" = some vsc) (h6 : form.lookup "classroom" = some vcl)
    (h7 : form.lookup "prerequisites" = some vp) (h8 : form.lookup "grading" = some vg)
    (h9 : form.lookup "description" = some vd) :
    add_course_post form fs =
      if missingFields vn vi vc vse vsc vcl vp vg vd ≠ [] then
        .ok (.validationFailed (missingFields vn vi vc vse vsc vcl vp vg vd), fs)
      else
        match save_courses (courseToJVal (mkCourse vc vn vi vse vsc vcl vp vg vd)) fs with
        | .error e => .error e
        | .ok fs' => .ok (.saved (mkCourse vc vn vi vse vsc vcl vp vg vd), fs') := by
  simp only [add_course_post, formGet, h1, h2, h3, h4, h5, h6, h7, h8, h9,
    bind, Except.bind, pure, Except.pure]

/-- Modelled from the spec (`findByCode`): linear scan over course records,
returning the first whose `code` field equals `code` under exact,
case-sensitive string equality, and nothing when none matches. -/
def findByCode (all : List Course) (code : String) : Option Course :=
  all.find? fun c => decide (c.lookup "code" = some code)

lemma lookup_courseToJVal (c : Course) (k : String) :
    (c.map fun kv => (kv.1, JVal.jstr kv.2)).lookup k = (c.lookup k).map JVal.jstr := by
  induction c with
  | nil => rfl
  | cons kv c ih =>
      cases h : k == kv.1 <;> simp [List.lookup, h, ih]

/-- C2 -- the scan of `course_details` is exactly `findByCode`: it returns
(without raising) the first record whose `code` field equals the requested
code under exact case-sensitive string comparison, and no result when no
record matches; duplicates are resolved deterministically in favour of the
earliest record. -/
theorem find_course_is_findByCode (courses : List Course) (code : String)
    (h : ∀ c ∈ courses, (c.lookup "code").isSome) :
    find_course (courses.map courseToJVal) code =
      .ok ((findByCode courses code).map courseToJVal) := by
  induction courses with
  | nil => rfl
  | cons c cs ih =>
      obtain ⟨v, hv⟩ := Option.isSome_iff_exists.mp (h c (List.mem_cons_self c cs))
      have hrest := ih fun c' hc' => h c' (List.mem_cons_of_mem c hc')
      have hj : jIndex (courseToJVal c) "code" = .ok (.jstr v) := by
        simp [jIndex, courseToJVal, lookup_courseToJVal, hv]
      rw [List.map_cons]
      simp only [find_course, hj]
      by_cases hvc : v = code
      · subst hvc
        rw [if_pos (by simp [pyEqStr])]
        simp [findByCode, List.find?, hv]
      · rw [if_neg (by simp [pyEqStr, hvc])]
        have hskip : findByCode (c :: cs) code = findByCode cs code := by
          simp [findByCode, List.find?, hv, hvc]
        rw [hskip]
        exact hrest

/-- Witness for C2 at the spec's example: in `[{code:"A"}, {code:"B"}]` the
code `"B"` finds the second record and the code `"Z"` finds nothing. -/
theorem find_course_is_findByCode_witness :
    find_course (([[("code", "A")], [("code", "B")]] : List Course).map courseToJVal) "B" =
      .ok ((findByCode [[("code", "A")], [("code", "B")]] "B").map courseToJVal) ∧
    find_course (([[("code", "A")], [("code", "B")]] : List Course).map courseToJVal) "Z" =
      .ok ((findByCode [[("code", "A")], [("code", "B")]] "Z").map courseToJVal) ∧
    findByCode [[("code", "A")], [("code", "B")]] "B" = some [("code", "B")] ∧
    findByCode [[("code", "A")], [("code", "B")]] "Z" = none :=
  ⟨find_course_is_findByCode _ "B" (by decide),
   find_course_is_findByCode _ "Z" (by decide), by decide, by decide⟩

/-- C7 -- the store does not enforce uniqueness of `code`: appending a course
whose `code` equals that of an already-persisted record succeeds and both
records coexist in the persisted sequence afterwards. -/
theorem duplicate_codes_coexist (fs : FileState) (xs : List JVal) (c c' : Course)
    (h : load_courses fs = .ok (.jarr xs)) (hc' : courseToJVal c' ∈ xs)
    (hcode : c.lookup "code" = c'.lookup "code") :
    save_courses (courseToJVal c) fs = .ok (.content (.jarr (xs ++ [courseToJVal c]))) ∧
    courseToJVal c' ∈ xs ++ [courseToJVal c] ∧
    courseToJVal c ∈ xs ++ [courseToJVal c] := by
  refine ⟨by simp [save_courses, h], by simp [hc'], by simp⟩

/-- Witness for C7: two distinct records sharing code "A". -/
theorem duplicate_codes_coexist_witness :
    save_courses (courseToJVal [("code", "A"), ("name", "second")])
        (.content (.jarr [courseToJVal [("code", "A"), ("name", "first")]])) =
      .ok (.content (.jarr [courseToJVal [("code", "A"), ("name", "first")],
        courseToJVal [("code", "A"), ("name", "second")]])) ∧
    courseToJVal [("code", "A"), ("name", "first")] ∈
      [courseToJVal [("code", "A"), ("name", "first")],
        courseToJVal [("code", "A"), ("name", "second")]] ∧
    courseToJVal [("code", "A"), ("name", "second")] ∈
      [courseToJVal [("code", "A"), ("name", "first")],
        courseToJVal [("code", "A"), ("name", "second")]] := by
  have h := duplicate_codes_coexist
    (.content (.jarr [courseToJVal [("code", "A"), ("name", "first")]]))
    [courseToJVal [("code", "A"), ("name", "first")]]
    [("code", "A"), ("name", "second")] [("code", "A"), ("name", "first")]
    rfl (List.mem_singleton.mpr rfl) rfl
  simpa using h

lemma lookup_all_required (form : List (String × String))
    (hall : ∀ kl ∈ requiredFields, (form.lookup kl.1).isSome) :
    ∃ vn vi vc vse vsc vcl vp vg vd,
      form.lookup "name" = some vn ∧ form.lookup "instructor" = some vi ∧
      form.lookup "code" = some vc ∧ form.lookup "semester" = some vse ∧
      form.lookup "schedule" = some vsc ∧ form.lookup "classroom" = some vcl ∧
      form.lookup "prerequisites" = some vp ∧ form.lookup "grading" = some vg ∧
      form.lookup "description" = some vd := by
  obtain ⟨vn, e1⟩ := Option.isSome_iff_exists.mp
    (hall ("name", "Course name") (by simp [requiredFields]))
  obtain ⟨vi, e2⟩ := Option.isSome_iff_exists.mp
    (hall ("instructor", "Instructor") (by simp [requiredFields]))
  obtain ⟨vc, e3⟩ := Option.isSome_iff_exists.mp
    (hall ("code", "Course code") (by simp [requiredFields]))
  obtain ⟨vse, e4⟩ := Option.isSome_iff_exists.mp
    (hall ("semester", "Semester") (by simp [requiredFields]))
  obtain ⟨vsc, e5⟩ := Option.isSome_iff_exists.mp
    (hall ("schedule", "Schedule") (by simp [requiredFields]))
  obtain ⟨vcl, e6⟩ := Option.isSome_iff_exists.mp
    (hall ("classroom", "Classroom") (by simp [requiredFields]))
  obtain ⟨vp, e7⟩ := Option.isSome_iff_exists.mp
    (hall ("prerequisites", "Prerequisites") (by simp [requiredFields]))
  obtain ⟨vg, e8⟩ := Option.isSome_iff_exists.mp
    (hall ("grading", "Grading") (by simp [requiredFields]))
  obtain ⟨vd, e9⟩ := Option.isSome_iff_exists.mp
    (hall ("description", "Description") (by simp [requiredFields]))
  exact ⟨vn, vi, vc, vse, vsc, vcl, vp, vg, vd, e1, e2, e3, e4, e5, e6, e7, e8, e9⟩

/-- C5 -- a record is appended only when every required field is non-empty:
with all nine fields present, a submission in which some required field is
empty is rejected with a nonempty missing-field report and the backing file is
left unchanged; and every course record that reaches the store has all of its
field values non-empty. -/
theorem record_persisted_only_if_required_nonempty :
    (∀ (form : List (String × String)) (fs : FileState),
      (∀ kl ∈ requiredFields, (form.lookup kl.1).isSome) →
      (∃ kl ∈ requiredFields, form.lookup kl.1 = some "") →
      ∃ ms, add_course_post form fs = .ok (.validationFailed ms, fs) ∧ ms ≠ []) ∧
    ∀ (form : List (String × String)) (fs : FileState) (course : Course)
      (fs' : FileState), add_course_post form fs = .ok (.saved course, fs') →
      ∀ kv ∈ course, kv.2 ≠ "" := by
  constructor
  · intro form fs hall hemp
    obtain ⟨vn, vi, vc, vse, vsc, vcl, vp, vg, vd, h1, h2, h3, h4, h5, h6, h7, h8, h9⟩ :=
      lookup_all_required form hall
    have hne : missingFields vn vi vc vse vsc vcl vp vg vd ≠ [] := by
      intro hnil
      rw [missingFields_eq_nil_iff] at hnil
      obtain ⟨kl, hkl, hke⟩ := hemp
      simp only [requiredFields, List.mem_cons, List.not_mem_nil, or_false] at hkl
      rcases hkl with rfl | rfl | rfl | rfl | rfl | rfl | rfl | rfl | rfl
      · exact hnil.1 (Option.some.inj (h1.symm.trans hke))
      · exact hnil.2.1 (Option.some.inj (h2.symm.trans hke))
      · exact hnil.2.2.1 (Option.some.inj (h3.symm.trans hke))
      · exact hnil.2.2.2.1 (Option.some.inj (h4.symm.trans hke))
      · exact hnil.2.2.2.2.1 (Option.some.inj (h5.symm.trans hke))
      · exact hnil.2.2.2.2.2.1 (Option.some.inj (h6.symm.trans hke))
      · exact hnil.2.2.2.2.2.2.1 (Option.some.inj (h7.symm.trans hke))
      · exact hnil.2.2.2.2.2.2.2.1 (Option.some.inj (h8.symm.trans hke))
      · exact hnil.2.2.2.2.2.2.2.2 (Option.some.inj (h9.symm.trans hke))
    refine ⟨_, ?_, hne⟩
    rw [add_course_post_eq form fs vn vi vc vse vsc vcl vp vg vd
      h1 h2 h3 h4 h5 h6 h7 h8 h9, if_pos hne]
  · intro form fs course fs' hpost kv hkv
    rcases hv1 : form.lookup "name" with _ | vn
    · simp [add_course_post, formGet, hv1, bind, Except.bind] at hpost
    rcases hv2 : form.lookup "instructor" with _ | vi
    · simp [add_course_post, formGet, hv1, hv2, bind, Except.bind] at hpost
    rcases hv3 : form.lookup "code" with _ | vc
    · simp [add_course_post, formGet, hv1, hv2, hv3, bind, Except.bind] at hpost
    rcases hv4 : form.lookup "semester" with _ | vse
    · simp [add_course_post, formGet, hv1, hv2, hv3, hv4, bind, Except.bind] at hpost
    rcases hv5 : form.lookup "schedule" with _ | vsc
    · simp [add_course_post, formGet, hv1, hv2, hv3, hv4, hv5, bind, Except.bind] at hpost
    rcases hv6 : form.lookup "classroom" with _ | vcl
    · simp [add_course_post, formGet, hv1, hv2, hv3, hv4, hv5, hv6, bind,
        Except.bind] at hpost
    rcases hv7 : form.lookup "prerequisites" with _ | vp
    · simp [add_course_post, formGet, hv1, hv2, hv3, hv4, hv5, hv6, hv7, bind,
        Except.bind] at hpost
    rcases hv8 : form.lookup "grading" with _ | vg
    · simp [add_course_post, formGet, hv1, hv2, hv3, hv4, hv5, hv6, hv7, hv8, bind,
        Except.bind] at hpost
    rcases hv9 : form.lookup "description" with _ | vd
    · simp [add_course_post, formGet, hv1, hv2, hv3, hv4, hv5, hv6, hv7, hv8, hv9,
        bind, Except.bind] at hpost
    rw [add_course_post_eq form fs vn vi vc vse vsc vcl vp vg vd
      hv1 hv2 hv3 hv4 hv5 hv6 hv7 hv8 hv9] at hpost
    by_cases heq : missingFields vn vi vc vse vsc vcl vp vg vd = []
    · rw [if_neg (by simp [heq])] at hpost
      obtain ⟨n1, n2, n3, n4, n5, n6, n7, n8, n9⟩ := (missingFields_eq_nil_iff vn vi vc vse vsc vcl vp vg vd).mp heq
      rcases hs : save_courses (courseToJVal (mkCourse vc vn vi vse vsc vcl vp vg vd)) fs
        with e | fs''
      · rw [hs] at hpost
        exact Except.noConfusion hpost
      · simp only [hs, Except.ok.injEq, Prod.mk.injEq, PostOutcome.saved.injEq] at hpost
        obtain ⟨hc, -⟩ := hpost
        subst hc
        simp only [mkCourse, List.mem_cons, List.not_mem_nil, or_false] at hkv
        rcases hkv with rfl | rfl | rfl | rfl | rfl | rfl | rfl | rfl | rfl
        · exact n3
        · exact n1
        · exact n2
        · exact n4
        · exact n5
        · exact n6
        · exact n7
        · exact n8
        · exact n9
    · rw [if_pos heq] at hpost
      simp at hpost

/-- Witness for C5: a submission with an empty name is rejected with the store
untouched, and a fully filled submission persists a record with no empty
field. -/
theorem record_persisted_only_if_required_nonempty_witness :
    (∃ ms, add_course_post
        [("name", ""), ("instructor", "I"), ("code", "C"), ("semester", "S"),
         ("schedule", "Sch"), ("classroom", "R"), ("prerequisites", "P"),
         ("grading", "G"), ("description", "D")] .absent =
      .ok (.validationFailed ms, .absent) ∧ ms ≠ []) ∧
    ∀ kv ∈ mkCourse "C" "N" "I" "S" "Sch" "R" "P" "G" "D", kv.2 ≠ "" :=
  ⟨record_persisted_only_if_required_nonempty.1 _ .absent (by decide)
      ⟨("name", "Course name"), by decide, by decide⟩,
   record_persisted_only_if_required_nonempty.2
      [("name", "N"), ("instructor", "I"), ("code", "C"), ("semester", "S"),
       ("schedule", "Sch"), ("classroom", "R"), ("prerequisites", "P"),
       ("grading", "G"), ("description", "D")] .absent
      (mkCourse "C" "N" "I" "S" "Sch" "R" "P" "G" "D")
      (.content (.jarr [courseToJVal (mkCourse "C" "N" "I" "S" "Sch" "R" "P" "G" "D")]))
      rfl⟩

/-- C3 counterexample: on the empty mapping the handler raises Flask's
`BadRequestKeyError` while reading the first form field, so no mapping of
per-field error entries (and no `"<Field> is required."` message) is ever
returned. -/
theorem validate_empty_mapping_raises :
    add_course_post [] .absent = .error .badRequestKeyError := rfl

/-- C3 (amended) -- when every required field is present, the handler collects
one human-readable label per field whose submitted value is the empty string
(`"Course name"`, `"Instructor"`, ..., not `"<Field> is required."` entries),
rejects the submission, and leaves the backing file unchanged; a field absent
from the mapping instead aborts the request with a bad-request error. -/
theorem validation_reports_empty_required_fields (form : List (String × String))
    (fs : FileState)
    (hall : ∀ kl ∈ requiredFields, (form.lookup kl.1).isSome)
    (kl : String × String) (hkl : kl ∈ requiredFields)
    (hemp : form.lookup kl.1 = some "") :
    ∃ ms, add_course_post form fs = .ok (.validationFailed ms, fs) ∧
      kl.2 ∈ ms ∧
      ∀ kl' ∈ requiredFields, (kl'.2 ∈ ms ↔ form.lookup kl'.1 = some "") := by
  obtain ⟨vn, vi, vc, vse, vsc, vcl, vp, vg, vd, h1, h2, h3, h4, h5, h6, h7, h8, h9⟩ :=
    lookup_all_required form hall
  have hiff : ∀ kl' ∈ requiredFields,
      (kl'.2 ∈ missingFields vn vi vc vse vsc vcl vp vg vd ↔
        form.lookup kl'.1 = some "") := by
    intro kl' hkl'
    simp only [requiredFields, List.mem_cons, List.not_mem_nil, or_false] at hkl'
    rcases hkl' with rfl | rfl | rfl | rfl | rfl | rfl | rfl | rfl | rfl <;>
      simp [mem_missingFields, h1, h2, h3, h4, h5, h6, h7, h8, h9]
  have hmem : kl.2 ∈ missingFields vn vi vc vse vsc vcl vp vg vd :=
    (hiff kl hkl).mpr hemp
  have hne : missingFields vn vi vc vse vsc vcl vp vg vd ≠ [] :=
    List.ne_nil_of_mem hmem
  refine ⟨_, ?_, hmem, hiff⟩
  rw [add_course_post_eq form fs vn vi vc vse vsc vcl vp vg vd
    h1 h2 h3 h4 h5 h6 h7 h8 h9, if_pos hne]

/-- Witness for the amended C3 at a submission whose `name` is empty. -/
theorem validation_reports_empty_required_fields_witness :
    ∃ ms, add_course_post
        [("name", ""), ("instructor", "I"), ("code", "C"), ("semester", "S"),
         ("schedule", "Sch"), ("classroom", "R"), ("prerequisites", "P"),
         ("grading", "G"), ("description", "D")] .malformed =
      .ok (.validationFailed ms, .malformed) ∧
      ("name", "Course name").2 ∈ ms ∧
      ∀ kl' ∈ requiredFields, (kl'.2 ∈ ms ↔
        List.lookup kl'.1
          [("name", ""), ("instructor", "I"), ("code", "C"), ("semester", "S"),
           ("schedule", "Sch"), ("classroom", "R"), ("prerequisites", "P"),
           ("grading", "G"), ("description", "D")] = some "") :=
  validation_reports_empty_required_fields _ .malformed (by decide)
    ("name", "Course name") (by decide) (by decide)

/-- C4 counterexample: the spec's three-field submission
`{code:"CS101", name:"Intro", instructor:"Dr. X"}` is not accepted by this
variant: reading the absent `semester` field raises Flask's
`BadRequestKeyError`, so no empty error mapping is returned. -/
theorem three_field_submission_raises :
    add_course_post
      [("code", "CS101"), ("name", "Intro"), ("instructor", "Dr. X")] .absent =
      .error .badRequestKeyError := rfl

/-- C4 (amended) -- a submission in which all nine fields required by this
variant are present and non-empty — the spec's three fields extended with
`semester`, `schedule`, `classroom`, `prerequisites`, `grading` and
`description` — is accepted with no validation errors and persisted. -/
theorem full_submission_accepted :
    add_course_post
      [("code", "CS101"), ("name", "Intro"), ("instructor", "Dr. X"),
       ("semester", "Fall"), ("schedule", "MWF"), ("classroom", "A1"),
       ("prerequisites", "None"), ("grading", "Letter"), ("description", "Basics")]
      .absent =
      .ok (.saved (mkCourse "CS101" "Intro" "Dr. X" "Fall" "MWF" "A1"
          "None" "Letter" "Basics"),
        .content (.jarr [courseToJVal (mkCourse "CS101" "Intro" "Dr. X" "Fall"
          "MWF" "A1" "None" "Letter" "Basics")])) := rfl

/-- C9 -- the emptiness check tests only string falsiness: required fields
whose values are non-empty but consist solely of whitespace pass validation,
and the record is persisted with those exact values, untrimmed. -/
theorem whitespace_fields_accepted (form : List (String × String))
    (fs : FileState) (xs : List JVal)
    (hload : load_courses fs = .ok (.jarr xs))
    (vn vi vc vse vsc vcl vp vg vd : String)
    (h1 : form.lookup "name" = some vn) (h2 : form.lookup "instructor" = some vi)
    (h3 : form.lookup "code" = some vc) (h4 : form.lookup "semester" = some vse)
    (h5 : form.lookup "schedule" = some vsc) (h6 : form.lookup "classroom" = some vcl)
    (h7 : form.lookup "prerequisites" = some vp) (h8 : form.lookup "grading" = some vg)
    (h9 : form.lookup "description" = some vd)
    (hws : ∀ v ∈ [vn, vi, vc, vse, vsc, vcl, vp, vg, vd],
      v ≠ "" ∧ v.toList.all Char.isWhitespace) :
    add_course_post form fs =
      .ok (.saved (mkCourse vc vn vi vse vsc vcl vp vg vd),
        .content (.jarr (xs ++ [courseToJVal (mkCourse vc vn vi vse vsc vcl vp vg vd)]))) := by
  have hnil : missingFields vn vi vc vse vsc vcl vp vg vd = [] :=
    (missingFields_eq_nil_iff vn vi vc vse vsc vcl vp vg vd).mpr
      ⟨(hws vn (by simp)).1, (hws vi (by simp)).1, (hws vc (by simp)).1,
       (hws vse (by simp)).1, (hws vsc (by simp)).1, (hws vcl (by simp)).1,
       (hws vp (by simp)).1, (hws vg (by simp)).1, (hws vd (by simp)).1⟩
  rw [add_course_post_eq form fs vn vi vc vse vsc vcl vp vg vd
    h1 h2 h3 h4 h5 h6 h7 h8 h9, if_neg (by simp [hnil])]
  simp [save_courses, hload]

/-- Witness for C9: a submission whose nine fields are all a single space is
persisted with the spaces intact. -/
theorem whitespace_fields_accepted_witness :
    add_course_post
      [("name", " "), ("instructor", " "), ("code", " "), ("semester", " "),
       ("schedule", " "), ("classroom", " "), ("prerequisites", " "),
       ("grading", " "), ("description", " ")] .absent =
      .ok (.saved (mkCourse " " " " " " " " " " " " " " " " " "),
        .content (.jarr [courseToJVal (mkCourse " " " " " " " " " " " " " " " " " ")])) :=
  whitespace_fields_accepted _ .absent [] rfl " " " " " " " " " " " " " " " " " "
    rfl rfl rfl rfl rfl rfl rfl rfl rfl (by decide)
